import Mathlib

/-!
Shallow embedding of pyramid_multiauth (src/pyramid_multiauth/__init__.py):
the MultiAuthenticationPolicy composite authentication policy and the
includeme configuration setup, together with theorems settling the spec
claims about them.

Conventions of the embedding: requests are abstract values of a type Req;
userids and principals are strings; a Python None is Option.none; response
headers are name-value string pairs; keyword-argument mappings are
association lists of strings.  A Python exception escaping an operation is
modelled by the operation returning none at type Option.
-/

namespace PyramidMultiauth

/-- Pseudo-principal Everyone, imported by the source from the pyramid
security module, whose value there is the string below. -/
def Everyone : String := "system.Everyone"

/-- Pseudo-principal Authenticated, imported by the source from the pyramid
security module, whose value there is the string below. -/
def Authenticated : String := "system.Authenticated"

/-- One authentication backend: the capability interface the composite
consumes (authenticated_userid, unauthenticated_userid,
effective_principals, remember, forget). -/
structure Policy (Req : Type) where
  authenticated_userid : Req → Option String
  unauthenticated_userid : Req → Option String
  effective_principals : Req → List String
  remember : Req → String → List (String × String) → List (String × String)
  forget : Req → List (String × String)

/-- The configured group callback.  The source calls the callback at two
sites with different arities: with one argument at line 73, as
self._callback(userid), and with two arguments at line 103, as
self._callback(userid, request).  The model therefore carries the behaviour
of the callback under each call shape; a none result models a Python None
return value. -/
structure GroupCallback (Req : Type) where
  callOne : String → Option (List String)
  callTwo : String → Req → Option (List String)

/-- MultiAuthenticationPolicy state: the ordered backend list
self._policies and the optional group callback self._callback
(lines 56-58 of the source). -/
structure MultiAuthenticationPolicy (Req : Type) where
  policies : List (Policy Req)
  callback : Option (GroupCallback Req)

/-- The loop of MultiAuthenticationPolicy.authenticated_userid
(lines 68-75): the userid variable is overwritten by each backend in turn,
and the loop breaks only when that userid is non-none, a callback is
configured, and the callback, called with the single argument userid,
returns non-none.  The first argument of the recursion is the current value
of the userid variable. -/
def authenticated_userid_from {Req : Type} (cb : Option (GroupCallback Req))
    (request : Req) : Option String → List (Policy Req) → Option String
  | userid, [] => userid
  | _, policy :: rest =>
      match policy.authenticated_userid request, cb with
      | some u, some c =>
          if (c.callOne u).isSome then some u
          else authenticated_userid_from cb request (some u) rest
      | some u, none => authenticated_userid_from cb request (some u) rest
      | none, _ => authenticated_userid_from cb request none rest

/-- MultiAuthenticationPolicy.authenticated_userid (lines 60-75). -/
def MultiAuthenticationPolicy.authenticated_userid {Req : Type}
    (m : MultiAuthenticationPolicy Req) (request : Req) : Option String :=
  authenticated_userid_from m.callback request none m.policies

/-- The loop of MultiAuthenticationPolicy.unauthenticated_userid
(lines 83-88): take the first non-none result, no callback involvement.
The first argument of the recursion is the current value of the userid
variable. -/
def unauthenticated_userid_from {Req : Type} (request : Req) :
    Option String → List (Policy Req) → Option String
  | userid, [] => userid
  | _, policy :: rest =>
      match policy.unauthenticated_userid request with
      | some u => some u
      | none => unauthenticated_userid_from request none rest

/-- MultiAuthenticationPolicy.unauthenticated_userid (lines 77-88). -/
def MultiAuthenticationPolicy.unauthenticated_userid {Req : Type}
    (m : MultiAuthenticationPolicy Req) (request : Req) : Option String :=
  unauthenticated_userid_from request none m.policies

/-- Python set insertion, modelled on lists: principals.add(x) keeps the
collection duplicate-free. -/
def pySetAdd (s : List String) (x : String) : List String :=
  if x ∈ s then s else s ++ [x]

/-- Python set update with an iterable: principals.update(xs). -/
def pySetUpdate (s : List String) (xs : List String) : List String :=
  xs.foldl pySetAdd s

/-- The accumulation loop of MultiAuthenticationPolicy.effective_principals
(lines 97-99): start from the set containing Everyone and union in every
backend's principal iterable. -/
def principals_foldl {Req : Type} (request : Req) (policies : List (Policy Req))
    (init : List String) : List String :=
  policies.foldl (fun acc policy => pySetUpdate acc (policy.effective_principals request)) init

/-- MultiAuthenticationPolicy.effective_principals (lines 90-107).  When a
callback is configured and the composite unauthenticated_userid is
non-none, the source computes groups as self._callback(userid, request) and
then runs principals.update(groups); when groups is None that update raises
TypeError, modelled here by the result none. -/
def MultiAuthenticationPolicy.effective_principals {Req : Type}
    (m : MultiAuthenticationPolicy Req) (request : Req) : Option (List String) :=
  let principals := principals_foldl request m.policies [Everyone]
  match m.callback with
  | none => some principals
  | some c =>
      match m.unauthenticated_userid request with
      | none => some principals
      | some userid =>
          match c.callTwo userid request with
          | none => none
          | some groups =>
              some (pySetUpdate (pySetAdd (pySetAdd principals userid) Authenticated) groups)

/-- MultiAuthenticationPolicy.remember (lines 109-118): extend the header
list with every backend's remember result, in backend order. -/
def MultiAuthenticationPolicy.remember {Req : Type}
    (m : MultiAuthenticationPolicy Req) (request : Req) (principal : String)
    (kw : List (String × String)) : List (String × String) :=
  m.policies.foldl (fun headers policy => headers ++ policy.remember request principal kw) []

/-- MultiAuthenticationPolicy.forget (lines 120-129): extend the header
list with every backend's forget result, in backend order. -/
def MultiAuthenticationPolicy.forget {Req : Type}
    (m : MultiAuthenticationPolicy Req) (request : Req) : List (String × String) :=
  m.policies.foldl (fun headers policy => headers ++ policy.forget request) []

/-- A call that the composite makes to the configured group callback,
recording the arguments passed: oneArg records the call shape
self._callback(userid) of line 73, twoArg records the call shape
self._callback(userid, request) of line 103. -/
inductive CallbackCall (Req : Type) where
  | oneArg (userid : String)
  | twoArg (userid : String) (request : Req)
deriving DecidableEq

/-- Number of arguments of a recorded callback call. -/
def CallbackCall.numArgs {Req : Type} : CallbackCall Req → Nat
  | .oneArg _ => 1
  | .twoArg _ _ => 2

/-- The callback calls made by the loop of authenticated_userid
(lines 68-75), in order: one single-argument call per scanned backend whose
userid is non-none while a callback is configured, stopping after the first
call that returns non-none. -/
def authenticated_userid_calls_from {Req : Type} (cb : Option (GroupCallback Req))
    (request : Req) : List (Policy Req) → List (CallbackCall Req)
  | [] => []
  | policy :: rest =>
      match policy.authenticated_userid request, cb with
      | some u, some c =>
          CallbackCall.oneArg u ::
            (if (c.callOne u).isSome then []
             else authenticated_userid_calls_from cb request rest)
      | some _, none => authenticated_userid_calls_from cb request rest
      | none, _ => authenticated_userid_calls_from cb request rest

/-- The callback calls made by MultiAuthenticationPolicy.authenticated_userid. -/
def MultiAuthenticationPolicy.authenticated_userid_calls {Req : Type}
    (m : MultiAuthenticationPolicy Req) (request : Req) : List (CallbackCall Req) :=
  authenticated_userid_calls_from m.callback request m.policies

/-- The callback calls made by MultiAuthenticationPolicy.effective_principals
(lines 100-103): exactly one two-argument call, with the userid and the
request, when a callback is configured and the composite
unauthenticated_userid is non-none; no call otherwise. -/
def MultiAuthenticationPolicy.effective_principals_calls {Req : Type}
    (m : MultiAuthenticationPolicy Req) (request : Req) : List (CallbackCall Req) :=
  match m.callback with
  | none => []
  | some _ =>
      match m.unauthenticated_userid request with
      | none => []
      | some userid => [CallbackCall.twoArg userid request]

/-- The insertion performed by grab_policies for one non-none factory result
(lines 210-212 of the source): policies.insert(0, policy) guarded by
`if not policies or policy is not policies[0]`.  Backends are modelled by an
abstract type with decidable equality standing for Python object identity. -/
def grab_policy_insert {B : Type} [DecidableEq B] (policies : List B) (policy : B) : List B :=
  match policies with
  | [] => [policy]
  | q :: rest => if policy = q then q :: rest else policy :: q :: rest

/-- One iteration of the grab_policies loop (lines 207-212): the factory
result none models a factory whose returned value is falsy (`if policy:`),
which contributes nothing. -/
def grab_policies_step {B : Type} [DecidableEq B] (policies : List B)
    (factory_result : Option B) : List B :=
  match factory_result with
  | none => policies
  | some policy => grab_policy_insert policies policy

/-- The grab_policies deferred action (lines 207-212), run over the results
the factories produce, in the order the factories appear in
policy_factories. -/
def grab_policies {B : Type} [DecidableEq B] (factory_results : List (Option B))
    (policies : List B) : List B :=
  factory_results.foldl grab_policies_step policies

/-- The whole setup path for the backend list (lines 188-213): includeme
builds policy_factories by iterating the declared policy names in reversed
order, and grab_policies then inserts each non-none factory result at the
front of the initially empty shared list.  The argument is the list of
factory results in original declaration order. -/
def setup_policies {B : Type} [DecidableEq B] (declared_results : List (Option B)) : List B :=
  grab_policies declared_results.reverse []

/-- Prefix test on the character lists of two strings, implementing the
Python str.startswith test used at line 178. -/
def strStartsWith (s pre : String) : Bool :=
  pre.data.isPrefixOf s.data

/-- Drop of the first n characters of a string, implementing the slice
s[n:] used at line 180. -/
def strDrop (s : String) (n : Nat) : String :=
  String.mk (s.data.drop n)

/-- Split of a character list at its first dot: some (before, after) when a
dot occurs, none otherwise. -/
def splitCharsAtDot : List Char → Option (List Char × List Char)
  | [] => none
  | c :: rest =>
      if c = '.' then some ([], rest)
      else (splitCharsAtDot rest).map (fun p => (c :: p.1, p.2))

/-- Python s.split(".", 1) as used at line 181: some (head, tail) when s
contains a dot, and none for the ValueError that the unpacking assignment
of the two names raises otherwise. -/
def splitFirstDot (s : String) : Option (String × String) :=
  (splitCharsAtDot s.data).map (fun p => (String.mk p.1, String.mk p.2))

/-- Whitespace split of a character list, second argument the reversed
current word: implements the Python str.split() of line 189, with
whitespace modelled as the space character. -/
def splitWordsAux : List Char → List Char → List String
  | [], acc => if acc.isEmpty then [] else [String.mk acc.reverse]
  | c :: rest, acc =>
      if c = ' ' then
        if acc.isEmpty then splitWordsAux rest []
        else String.mk acc.reverse :: splitWordsAux rest []
      else splitWordsAux rest (c :: acc)

/-- Python s.split() with no separator argument (line 189). -/
def splitWords (s : String) : List String :=
  splitWordsAux s.data []

/-- The settings key stem the source strips (line 178-180). -/
def policyKeyStem : String := "multiauth.policy."

/-- Dictionary lookup settings.get(key): settings are modelled as an
association list with the keys of the Python dict. -/
def settingsGet (settings : List (String × String)) (key : String) : Option String :=
  (settings.find? (fun kv => kv.1 = key)).map (fun kv => kv.2)

/-- The policy-definitions parse loop of includeme (lines 176-184), yielding
the flattened dictionary as (policy_name, setting_name, value) triples;
none models the ValueError raised when a matching settings key has no dot
after the stripped stem. -/
def parse_policy_definitions (settings : List (String × String)) :
    Option (List (String × String × String)) :=
  settings.foldl
    (fun acc kv =>
      match acc with
      | none => none
      | some defs =>
          if strStartsWith kv.1 policyKeyStem then
            match splitFirstDot (strDrop kv.1 policyKeyStem.length) with
            | none => none
            | some (policy_name, setting_name) =>
                some (defs ++ [(policy_name, setting_name, kv.2)])
          else some defs)
    (some [])

/-- One entry of policy_factories (lines 188-200): either an explicit
declaration, recording the dotted factory reference from the use setting
and the remaining settings as keyword arguments, or an include-style
declaration recording the module name. -/
inductive PolicyFactory where
  | fromUse (dotted : String) (kwargs : List (String × String))
  | fromInclude (moduleName : String)
deriving DecidableEq

/-- The declared policy names (line 189): settings.get with default the
empty string, split on whitespace. -/
def includeme_policy_names (settings : List (String × String)) : List String :=
  splitWords ((settingsGet settings "multiauth.policies").getD "")

/-- One iteration of the policy-names loop of includeme (lines 190-200):
when the name has definitions, the explicit branch runs, where
definition.pop("use") raises KeyError, modelled as none, if no use setting
exists; otherwise the include branch records the module name.  The
accumulator none models an error already raised. -/
def includeme_factories_step (defs : List (String × String × String))
    (acc : Option (List PolicyFactory)) (policy_name : String) : Option (List PolicyFactory) :=
  match acc with
  | none => none
  | some fs =>
      let d := defs.filter (fun t => t.1 = policy_name)
      if d.isEmpty then some (fs ++ [PolicyFactory.fromInclude policy_name])
      else
        match d.find? (fun t => t.2.1 = "use") with
        | none => none
        | some t =>
            some (fs ++ [PolicyFactory.fromUse t.2.2
              ((d.filter (fun t2 => t2.2.1 ≠ "use")).map (fun t2 => (t2.2.1, t2.2.2)))])

/-- The factory-building part of includeme (lines 176-200): parse the
policy definitions, then walk the declared names in reversed order,
building the policy_factories list; none models a setup-time error. -/
def includeme_factories (settings : List (String × String)) : Option (List PolicyFactory) :=
  match parse_policy_definitions settings with
  | none => none
  | some defs =>
      (includeme_policy_names settings).reverse.foldl (includeme_factories_step defs) (some [])

/-- The authorization policy includeme registers (lines 214-218): the
source unconditionally calls
config.set_authorization_policy(ACLAuthorizationPolicy()), whatever the
settings are. -/
def includeme_registered_authz (settings : List (String × String)) : String :=
  "ACLAuthorizationPolicy"

/-- Modelled from the spec: the host configuration framework, which is not
part of this repository, resolves an authorization policy registered by an
included module against one configured explicitly by the application, and
the explicitly configured one takes precedence, so the registration by the
include takes effect only when the application configured none.  The spec
states that the install registers a default ACL-style authorization policy
only if the host has none already configured, and the source comment at
lines 215-216 documents the same override behaviour. -/
def resolve_authorization_policy (host_configured : Option String)
    (include_registered : String) : String :=
  match host_configured with
  | some p => p
  | none => include_registered

/-- The effective authorization policy after includeme runs against a host
whose application-level configured policy is host_configured. -/
def includeme_effective_authz (settings : List (String × String))
    (host_configured : Option String) : String :=
  resolve_authorization_policy host_configured (includeme_registered_authz settings)

/-- Stated from the spec, for comparison with the source behaviour: the
result of the first backend in list order whose authenticated_userid is
non-none. -/
def first_backend_userid {Req : Type} (request : Req) (ps : List (Policy Req)) : Option String :=
  ps.findSome? (fun policy => policy.authenticated_userid request)

/-- Stated for the amended claim: the first backend userid, in list order,
that is non-none and accepted by the callback (called with the single
argument userid). -/
def first_accepted_userid {Req : Type} (c : GroupCallback Req) (request : Req) :
    List (Policy Req) → Option String
  | [] => none
  | policy :: rest =>
      match policy.authenticated_userid request with
      | some u =>
          if (c.callOne u).isSome then some u else first_accepted_userid c request rest
      | none => first_accepted_userid c request rest

/-- Stated for the amended claim: the authenticated_userid result of the
last backend in the list, none for the empty list. -/
def last_policy_userid {Req : Type} (request : Req) : List (Policy Req) → Option String
  | [] => none
  | [policy] => policy.authenticated_userid request
  | _ :: rest => last_policy_userid request rest

/-- Concrete backend over Req := Nat whose authenticated_userid and
unauthenticated_userid are always the string alice. -/
def pAlice : Policy Nat where
  authenticated_userid := fun _ => some "alice"
  unauthenticated_userid := fun _ => some "alice"
  effective_principals := fun _ => []
  remember := fun _ _ _ => []
  forget := fun _ => []

/-- Concrete backend that identifies nobody and contributes nothing. -/
def pSilent : Policy Nat where
  authenticated_userid := fun _ => none
  unauthenticated_userid := fun _ => none
  effective_principals := fun _ => []
  remember := fun _ _ _ => []
  forget := fun _ => []

/-- Concrete backend whose principal set contains the Authenticated
pseudo-principal and which identifies nobody. -/
def pAuthedOnly : Policy Nat where
  authenticated_userid := fun _ => none
  unauthenticated_userid := fun _ => none
  effective_principals := fun _ => [Authenticated]
  remember := fun _ _ _ => []
  forget := fun _ => []

/-- Concrete backend whose unauthenticated_userid is always the string bob. -/
def pBob : Policy Nat where
  authenticated_userid := fun _ => none
  unauthenticated_userid := fun _ => some "bob"
  effective_principals := fun _ => []
  remember := fun _ _ _ => []
  forget := fun _ => []

/-- Concrete group callback that returns None for every userid under either
call shape. -/
def cbReject : GroupCallback Nat where
  callOne := fun _ => none
  callTwo := fun _ _ => none

/-- Concrete group callback that returns an empty group list for every
userid under either call shape. -/
def cbEmpty : GroupCallback Nat where
  callOne := fun _ => some []
  callTwo := fun _ _ => some []

/-- Composite with backends [pAlice, pSilent] and no group callback. -/
def mC1 : MultiAuthenticationPolicy Nat where
  policies := [pAlice, pSilent]
  callback := none

/-- Composite with backends [pAlice, pSilent] and the rejecting callback. -/
def mC2x : MultiAuthenticationPolicy Nat where
  policies := [pAlice, pSilent]
  callback := some cbReject

/-- Composite with the single backend pAuthedOnly and no group callback. -/
def mC3x : MultiAuthenticationPolicy Nat where
  policies := [pAuthedOnly]
  callback := none

/-- Composite with the single backend pBob and the empty-groups callback. -/
def mC7x : MultiAuthenticationPolicy Nat where
  policies := [pBob]
  callback := some cbEmpty

/-- Composite with the single backend pBob and the rejecting callback. -/
def mC8w : MultiAuthenticationPolicy Nat where
  policies := [pBob]
  callback := some cbReject

/-- Concrete settings: the policy name foo has one parameter setting and no
use setting, and no multiauth.policies key is present. -/
def settingsC9x : List (String × String) :=
  [("multiauth.policy.foo.bar", "x")]

/-- Concrete settings: the policy name foo is declared in
multiauth.policies and has one parameter setting but no use setting. -/
def settingsC9w : List (String × String) :=
  [("multiauth.policies", "foo"), ("multiauth.policy.foo.bar", "x")]

theorem foldl_append_eq_flatten {α β : Type _} (f : α → List β) :
    ∀ (l : List α) (init : List β),
      l.foldl (fun acc a => acc ++ f a) init = init ++ (l.map f).flatten
  | [], init => by simp
  | a :: l, init => by
    simp only [List.foldl_cons, List.map_cons, List.flatten_cons]
    rw [foldl_append_eq_flatten f l (init ++ f a)]
    simp [List.append_assoc]

/-- Claim C1: the claim states that authenticated_userid returns the result
of the first backend whose authenticated_userid is non-none, independent of
later backends.  The source contradicts this, and also its own docstring at
lines 63-66: with no callback configured the loop at lines 69-74 never
breaks, so the userid variable is overwritten by every backend and the last
result is returned.  Here the composite with backends [pAlice, pSilent] and
no callback returns none although the first backend returned alice. -/
theorem C1_code_evaluation :
    mC1.authenticated_userid 0 = none ∧ first_backend_userid 0 mC1.policies = some "alice" :=
  ⟨rfl, rfl⟩

/-- Claim C4: remember returns the concatenation, in backend list order, of
every backend's remember result, and forget the concatenation of every
backend's forget result; no backend is skipped. -/
theorem C4_remember_forget {Req : Type} (m : MultiAuthenticationPolicy Req)
    (request : Req) (principal : String) (kw : List (String × String)) :
    m.remember request principal kw
        = (m.policies.map (fun policy => policy.remember request principal kw)).flatten ∧
    m.forget request = (m.policies.map (fun policy => policy.forget request)).flatten := by
  constructor
  · simpa [MultiAuthenticationPolicy.remember] using
      foldl_append_eq_flatten (fun policy : Policy Req => policy.remember request principal kw)
        m.policies []
  · simpa [MultiAuthenticationPolicy.forget] using
      foldl_append_eq_flatten (fun policy : Policy Req => policy.forget request) m.policies []

/-- Claim C6: during the deferred population step, a factory returning none
contributes nothing, a factory whose result is already the first element of
the backend list is not inserted again, and re-running the per-factory
population step on its own output leaves the list unchanged. -/
theorem C6_idempotence {B : Type} [DecidableEq B] (ps : List B) (f : Option B) :
    grab_policies_step ps none = ps ∧
    (∀ b : B, ps.head? = some b → grab_policies_step ps (some b) = ps) ∧
    grab_policies_step (grab_policies_step ps f) f = grab_policies_step ps f := by
  refine ⟨rfl, ?_, ?_⟩
  · intro b hb
    cases ps with
    | nil => simp at hb
    | cons q rest =>
      have hq : q = b := by simpa using hb
      subst hq
      simp [grab_policies_step, grab_policy_insert]
  · cases f with
    | none => rfl
    | some b =>
      cases ps with
      | nil => simp [grab_policies_step, grab_policy_insert]
      | cons q rest =>
        by_cases hqb : b = q
        · simp [grab_policies_step, grab_policy_insert, hqb]
        · simp [grab_policies_step, grab_policy_insert, hqb]

/-- Witness for claim C6 at the concrete list [5, 6] and factory result 5,
which is already at the front. -/
theorem C6_idempotence_witness : grab_policies_step [5, 6] (some 5) = ([5, 6] : List Nat) :=
  (C6_idempotence [5, 6] (some 5)).2.1 5 rfl

/-- Claim C10: includeme always registers the default ACL-style
authorization policy, and under the host framework's documented resolution,
modelled by resolve_authorization_policy, the effective policy is the
application's explicitly configured one when present, and the registered
ACL default otherwise: an existing authorization policy is left
unchanged. -/
theorem C10_authorization_default (settings : List (String × String))
    (host_configured : Option String) :
    includeme_effective_authz settings host_configured
        = host_configured.getD (includeme_registered_authz settings) ∧
    includeme_registered_authz settings = "ACLAuthorizationPolicy" := by
  refine ⟨?_, rfl⟩
  cases host_configured <;> rfl

theorem authenticated_userid_from_some {Req : Type} (c : GroupCallback Req) (request : Req) :
    ∀ (ps : List (Policy Req)) (acc : Option String),
      authenticated_userid_from (some c) request acc ps =
        match first_accepted_userid c request ps, ps with
        | some u, _ => some u
        | none, [] => acc
        | none, _ :: _ => last_policy_userid request ps := by
  intro ps
  induction ps with
  | nil => intro acc; rfl
  | cons policy rest ih =>
    intro acc
    cases hpu : policy.authenticated_userid request with
    | none =>
      simp only [authenticated_userid_from, hpu, first_accepted_userid]
      rw [ih none]
      cases hfa : first_accepted_userid c request rest with
      | some u => rfl
      | none =>
        cases rest with
        | nil => simp [last_policy_userid, hpu]
        | cons q qs => simp [last_policy_userid]
    | some u =>
      by_cases hacc : (c.callOne u).isSome
      · simp only [authenticated_userid_from, hpu, first_accepted_userid, if_pos hacc]
      · simp only [authenticated_userid_from, hpu, first_accepted_userid, if_neg hacc]
        rw [ih (some u)]
        cases hfa : first_accepted_userid c request rest with
        | some v => rfl
        | none =>
          cases rest with
          | nil => simp [last_policy_userid, hpu]
          | cons q qs => simp [last_policy_userid]

/-- Claim C2 counterexample: with backends [pAlice, pSilent] and the
rejecting callback, the first non-none userid alice is rejected by the
callback, and the composite returns none, not alice: scanning continues
and the userid variable is overwritten by the later backend. -/
theorem C2_counterexample :
    mC2x.authenticated_userid 0 = none ∧
    first_backend_userid 0 mC2x.policies = some "alice" ∧
    cbReject.callOne "alice" = none :=
  ⟨rfl, rfl, rfl⟩

/-- Claim C2 amended: when a group callback is configured,
authenticated_userid returns the first backend userid accepted by the
callback if one exists, and otherwise the last backend's result; a
rejected userid is returned only when its backend is the last one, so the
first rejected non-none userid is in general not returned. -/
theorem C2_amended {Req : Type} (m : MultiAuthenticationPolicy Req) (c : GroupCallback Req)
    (request : Req) (hcb : m.callback = some c) :
    m.authenticated_userid request =
      match first_accepted_userid c request m.policies with
      | some u => some u
      | none => last_policy_userid request m.policies := by
  unfold MultiAuthenticationPolicy.authenticated_userid
  rw [hcb, authenticated_userid_from_some]
  cases hfa : first_accepted_userid c request m.policies with
  | some u => rfl
  | none =>
    cases m.policies with
    | nil => simp [last_policy_userid]
    | cons q qs => rfl

/-- Witness for claim C2 amended at the concrete composite mC2x. -/
theorem C2_amended_witness : mC2x.authenticated_userid 0 = none :=
  (C2_amended mC2x cbReject 0 rfl).trans rfl

theorem authenticated_userid_calls_oneArg {Req : Type} (cb : Option (GroupCallback Req))
    (request : Req) :
    ∀ ps : List (Policy Req), ∀ call ∈ authenticated_userid_calls_from cb request ps,
      call.numArgs = 1 := by
  cases cb with
  | none =>
    intro ps
    induction ps with
    | nil => intro call h; simp [authenticated_userid_calls_from] at h
    | cons policy rest ih =>
      intro call h
      cases hpu : policy.authenticated_userid request with
      | none =>
        simp only [authenticated_userid_calls_from, hpu] at h
        exact ih call h
      | some u =>
        simp only [authenticated_userid_calls_from, hpu] at h
        exact ih call h
  | some c =>
    intro ps
    induction ps with
    | nil => intro call h; simp [authenticated_userid_calls_from] at h
    | cons policy rest ih =>
      intro call h
      cases hpu : policy.authenticated_userid request with
      | none =>
        simp only [authenticated_userid_calls_from, hpu] at h
        exact ih call h
      | some u =>
        simp only [authenticated_userid_calls_from, hpu] at h
        rcases List.mem_cons.mp h with hc | hc
        · subst hc; rfl
        · by_cases hacc : (c.callOne u).isSome
          · rw [if_pos hacc] at hc; simp at hc
          · rw [if_neg hacc] at hc; exact ih call hc

/-- Claim C7 counterexample: with a callback configured and a backend whose
unauthenticated_userid is bob, effective_principals calls the callback with
two arguments, the userid and the request, so not every composite call to
the callback passes exactly one argument. -/
theorem C7_counterexample :
    mC7x.effective_principals_calls 0 = [CallbackCall.twoArg "bob" 0] ∧
    (CallbackCall.twoArg "bob" (0 : Nat)).numArgs ≠ 1 :=
  ⟨rfl, by decide⟩

/-- Claim C7 amended: every callback call made by authenticated_userid
passes exactly one argument, the userid, while every callback call made by
effective_principals passes exactly two arguments, the userid and the
request. -/
theorem C7_amended {Req : Type} (m : MultiAuthenticationPolicy Req) (request : Req) :
    (∀ call ∈ m.authenticated_userid_calls request, call.numArgs = 1) ∧
    (∀ call ∈ m.effective_principals_calls request, call.numArgs = 2) := by
  constructor
  · exact authenticated_userid_calls_oneArg m.callback request m.policies
  · intro call h
    simp only [MultiAuthenticationPolicy.effective_principals_calls] at h
    cases hcb : m.callback with
    | none => rw [hcb] at h; simp at h
    | some c =>
      rw [hcb] at h
      cases hu : m.unauthenticated_userid request with
      | none => rw [hu] at h; simp at h
      | some u =>
        rw [hu] at h
        have hc : call = CallbackCall.twoArg u request := by simpa using h
        subst hc
        rfl

/-- Witness for claim C7 amended at the concrete composite mC7x. -/
theorem C7_amended_witness : (CallbackCall.twoArg "bob" (0 : Nat)).numArgs = 2 :=
  (C7_amended mC7x 0).2 (CallbackCall.twoArg "bob" 0) (by decide)

/-- Claim C8: when a group callback is configured, the composite
unauthenticated_userid is non-none, and the callback returns none for that
userid, effective_principals raises a TypeError at the un-guarded
principals.update(groups) of line 106, modelled by the result none, instead
of returning a principal collection. -/
theorem C8_raises {Req : Type} (m : MultiAuthenticationPolicy Req) (request : Req)
    (c : GroupCallback Req) (u : String) (hcb : m.callback = some c)
    (hu : m.unauthenticated_userid request = some u)
    (hg : c.callTwo u request = none) :
    m.effective_principals request = none := by
  simp [MultiAuthenticationPolicy.effective_principals, hcb, hu, hg]

/-- Witness for claim C8 at the concrete composite mC8w. -/
theorem C8_raises_witness : mC8w.effective_principals 0 = none :=
  C8_raises mC8w 0 cbReject "bob" rfl rfl rfl

theorem mem_pySetAdd {s : List String} {x y : String} :
    x ∈ pySetAdd s y ↔ x ∈ s ∨ x = y := by
  unfold pySetAdd
  by_cases h : y ∈ s
  · rw [if_pos h]
    constructor
    · exact Or.inl
    · rintro (hx | rfl)
      · exact hx
      · exact h
  · rw [if_neg h]
    simp

theorem nodup_pySetAdd {s : List String} (y : String) (h : s.Nodup) :
    (pySetAdd s y).Nodup := by
  unfold pySetAdd
  by_cases hy : y ∈ s
  · rw [if_pos hy]; exact h
  · rw [if_neg hy]
    simp [List.nodup_append, h, hy]

theorem mem_pySetUpdate {x : String} :
    ∀ (ys s : List String), x ∈ pySetUpdate s ys ↔ x ∈ s ∨ x ∈ ys := by
  intro ys
  induction ys with
  | nil => intro s; simp [pySetUpdate]
  | cons y ys ih =>
    intro s
    show x ∈ pySetUpdate (pySetAdd s y) ys ↔ _
    rw [ih, mem_pySetAdd]
    simp only [List.mem_cons]
    tauto

theorem nodup_pySetUpdate :
    ∀ (ys s : List String), s.Nodup → (pySetUpdate s ys).Nodup := by
  intro ys
  induction ys with
  | nil => intro s h; simpa [pySetUpdate] using h
  | cons y ys ih =>
    intro s h
    show (pySetUpdate (pySetAdd s y) ys).Nodup
    exact ih _ (nodup_pySetAdd y h)

theorem mem_principals_foldl {Req : Type} (request : Req) (x : String) :
    ∀ (ps : List (Policy Req)) (init : List String),
      x ∈ principals_foldl request ps init ↔
        x ∈ init ∨ ∃ policy ∈ ps, x ∈ policy.effective_principals request := by
  intro ps
  induction ps with
  | nil => intro init; simp [principals_foldl]
  | cons policy rest ih =>
    intro init
    show x ∈ principals_foldl request rest
        (pySetUpdate init (policy.effective_principals request)) ↔ _
    rw [ih, mem_pySetUpdate]
    constructor
    · rintro ((hx | hx) | ⟨q, hq, hxq⟩)
      · exact Or.inl hx
      · exact Or.inr ⟨policy, List.mem_cons_self policy rest, hx⟩
      · exact Or.inr ⟨q, List.mem_cons_of_mem policy hq, hxq⟩
    · rintro (hx | ⟨q, hq, hxq⟩)
      · exact Or.inl (Or.inl hx)
      · rcases List.mem_cons.mp hq with rfl | hq2
        · exact Or.inl (Or.inr hxq)
        · exact Or.inr ⟨q, hq2, hxq⟩

theorem nodup_principals_foldl {Req : Type} (request : Req) :
    ∀ (ps : List (Policy Req)) (init : List String), init.Nodup →
      (principals_foldl request ps init).Nodup := by
  intro ps
  induction ps with
  | nil => intro init h; simpa [principals_foldl] using h
  | cons policy rest ih =>
    intro init h
    show (principals_foldl request rest
        (pySetUpdate init (policy.effective_principals request))).Nodup
    exact ih _ (nodup_pySetUpdate _ _ h)

/-- Claim C3 counterexample: a backend may itself contribute the
Authenticated pseudo-principal, so the returned collection can contain
Authenticated although no group callback is configured, refuting the
claimed iff. -/
theorem C3_counterexample :
    mC3x.effective_principals 0 = some [Everyone, Authenticated] ∧
    Authenticated ∈ [Everyone, Authenticated] ∧
    mC3x.callback = none :=
  ⟨rfl, by simp, rfl⟩

/-- Claim C3 amended: whenever effective_principals returns a collection,
that collection contains Everyone, has no duplicates, and includes the
union of every backend's principal set; it contains Authenticated if and
only if a group callback is configured and unauthenticated_userid is
non-none, or some backend's own principal set contains Authenticated. -/
theorem C3_amended {Req : Type} (m : MultiAuthenticationPolicy Req) (request : Req)
    (s : List String) (h : m.effective_principals request = some s) :
    Everyone ∈ s ∧ s.Nodup ∧
    (∀ policy ∈ m.policies, ∀ x ∈ policy.effective_principals request, x ∈ s) ∧
    (Authenticated ∈ s ↔
      (m.callback.isSome ∧ (m.unauthenticated_userid request).isSome) ∨
      ∃ policy ∈ m.policies, Authenticated ∈ policy.effective_principals request) := by
  have hbase_nodup : (principals_foldl request m.policies [Everyone]).Nodup :=
    nodup_principals_foldl request m.policies [Everyone] (by simp)
  have hbase_mem : ∀ x, x ∈ principals_foldl request m.policies [Everyone] ↔
      x = Everyone ∨ ∃ policy ∈ m.policies, x ∈ policy.effective_principals request := by
    intro x
    rw [mem_principals_foldl]
    simp
  cases hcb : m.callback with
  | none =>
    simp only [MultiAuthenticationPolicy.effective_principals, hcb] at h
    have hs : principals_foldl request m.policies [Everyone] = s := Option.some.inj h
    subst hs
    refine ⟨(hbase_mem Everyone).mpr (Or.inl rfl), hbase_nodup, ?_, ?_⟩
    · intro policy hp x hx
      exact (hbase_mem x).mpr (Or.inr ⟨policy, hp, hx⟩)
    · rw [hbase_mem Authenticated]
      constructor
      · rintro (habs | hE)
        · exact absurd habs (by decide)
        · exact Or.inr hE
      · rintro (⟨hks, _⟩ | hE)
        · simp at hks
        · exact Or.inr hE
  | some c =>
    cases hu : m.unauthenticated_userid request with
    | none =>
      simp only [MultiAuthenticationPolicy.effective_principals, hcb, hu] at h
      have hs : principals_foldl request m.policies [Everyone] = s := Option.some.inj h
      subst hs
      refine ⟨(hbase_mem Everyone).mpr (Or.inl rfl), hbase_nodup, ?_, ?_⟩
      · intro policy hp x hx
        exact (hbase_mem x).mpr (Or.inr ⟨policy, hp, hx⟩)
      · rw [hbase_mem Authenticated]
        constructor
        · rintro (habs | hE)
          · exact absurd habs (by decide)
          · exact Or.inr hE
        · rintro (⟨_, hus⟩ | hE)
          · simp at hus
          · exact Or.inr hE
    | some userid =>
      cases hg : c.callTwo userid request with
      | none =>
        simp only [MultiAuthenticationPolicy.effective_principals, hcb, hu, hg] at h
        exact absurd h (by simp)
      | some groups =>
        simp only [MultiAuthenticationPolicy.effective_principals, hcb, hu, hg] at h
        have hs : pySetUpdate (pySetAdd (pySetAdd
            (principals_foldl request m.policies [Everyone]) userid) Authenticated) groups
            = s := Option.some.inj h
        subst hs
        refine ⟨?_, ?_, ?_, ?_⟩
        · exact (mem_pySetUpdate _ _).mpr (Or.inl (mem_pySetAdd.mpr (Or.inl
            (mem_pySetAdd.mpr (Or.inl ((hbase_mem Everyone).mpr (Or.inl rfl)))))))
        · exact nodup_pySetUpdate _ _ (nodup_pySetAdd _ (nodup_pySetAdd _ hbase_nodup))
        · intro policy hp x hx
          exact (mem_pySetUpdate _ _).mpr (Or.inl (mem_pySetAdd.mpr (Or.inl
            (mem_pySetAdd.mpr (Or.inl ((hbase_mem x).mpr (Or.inr ⟨policy, hp, hx⟩)))))))
        · constructor
          · intro _
            exact Or.inl ⟨by simp [hcb], by simp [hu]⟩
          · intro _
            exact (mem_pySetUpdate _ _).mpr (Or.inl (mem_pySetAdd.mpr (Or.inr rfl)))

/-- Witness for claim C3 amended at the concrete composite mC3x. -/
theorem C3_amended_witness :
    Everyone ∈ ([Everyone, Authenticated] : List String) ∧
    ([Everyone, Authenticated] : List String).Nodup := by
  have h := C3_amended mC3x 0 [Everyone, Authenticated] rfl
  exact ⟨h.1, h.2.1⟩

theorem grab_policy_insert_of_head_ne {B : Type} [DecidableEq B] (ps : List B) (c : B)
    (h : ps.head? ≠ some c) : grab_policy_insert ps c = c :: ps := by
  cases ps with
  | nil => rfl
  | cons q rest =>
    have hne : ¬(c = q) := fun hcq => h (by simp [hcq])
    simp [grab_policy_insert, hne]

theorem grab_policies_map_some {B : Type} [DecidableEq B] :
    ∀ (cs ps : List B), cs.Chain' (fun a b => a ≠ b) →
      (∀ c, cs.head? = some c → ps.head? ≠ some c) →
      grab_policies (cs.map some) ps = cs.reverse ++ ps := by
  intro cs
  induction cs with
  | nil => intro ps _ _; rfl
  | cons c cs ih =>
    intro ps hchain hhead
    have hins : grab_policies_step ps (some c) = c :: ps :=
      grab_policy_insert_of_head_ne ps c (hhead c rfl)
    have hcond : ∀ e, cs.head? = some e → (c :: ps).head? ≠ some e := by
      intro e he
      cases cs with
      | nil => simp at he
      | cons d2 cs2 =>
        have he2 : d2 = e := by simpa using he
        subst he2
        have hcd : c ≠ d2 := (List.chain'_cons.mp hchain).1
        simp [hcd]
    show grab_policies (cs.map some) (grab_policies_step ps (some c)) = _
    rw [hins]
    rw [ih (c :: ps) hchain.tail hcond]
    simp

/-- Claim C5 counterexample: two declarations whose factories yield the
identical backend object collapse to a single list entry, because the
duplicate guard of grab_policies skips the insertion, so the final list is
not the declared sequence. -/
theorem C5_counterexample :
    setup_policies (([0, 0] : List Nat).map some) = [0] ∧
    ([0] : List Nat) ≠ [0, 0] := by
  constructor
  · decide
  · decide

/-- Claim C5 amended: when every declared factory yields a backend and no
two adjacent declarations yield the identical backend, running setup, with
factories invoked in reverse declaration order and each result inserted at
the front, leaves the backend list equal to the backends in original
declaration order. -/
theorem C5_amended {B : Type} [DecidableEq B] (bs : List B)
    (h : bs.Chain' (fun a b => a ≠ b)) :
    setup_policies (bs.map some) = bs := by
  unfold setup_policies
  have hrev : (bs.map (some : B → Option B)).reverse = bs.reverse.map some := by
    simp
  rw [hrev]
  rw [grab_policies_map_some bs.reverse [] ?hc ?hh]
  · simp
  case hc =>
    rw [List.chain'_reverse]
    exact h.imp (fun a b hab => hab.symm)
  case hh =>
    intro c _
    simp

/-- Witness for claim C5 amended at the concrete declaration results
[1, 2, 3]. -/
theorem C5_amended_witness :
    setup_policies (([1, 2, 3] : List Nat).map some) = [1, 2, 3] :=
  C5_amended [1, 2, 3] (by simp [List.chain'_cons])

theorem includeme_factories_step_bad (defs : List (String × String × String)) (name : String)
    (hne : defs.filter (fun t => t.1 = name) ≠ [])
    (huse : (defs.filter (fun t => t.1 = name)).find? (fun t => t.2.1 = "use") = none) :
    ∀ acc, includeme_factories_step defs acc name = none := by
  intro acc
  cases acc with
  | none => rfl
  | some fs =>
    have hemp : (defs.filter (fun t => t.1 = name)).isEmpty = false := by
      cases hd : defs.filter (fun t => t.1 = name) with
      | nil => exact absurd hd hne
      | cons a l => rfl
    simp [includeme_factories_step, hemp, huse]

theorem foldl_step_none (defs : List (String × String × String)) :
    ∀ l : List String, l.foldl (includeme_factories_step defs) none = none := by
  intro l
  induction l with
  | nil => rfl
  | cons x l ih => exact ih

theorem foldl_step_mem_none (defs : List (String × String × String)) (name : String)
    (hbad : ∀ acc, includeme_factories_step defs acc name = none) :
    ∀ l : List String, name ∈ l →
      ∀ acc, l.foldl (includeme_factories_step defs) acc = none := by
  intro l
  induction l with
  | nil => intro hmem; simp at hmem
  | cons x l ih =>
    intro hmem acc
    rcases List.mem_cons.mp hmem with rfl | hmem2
    · show l.foldl _ (includeme_factories_step defs acc name) = none
      rw [hbad acc]
      exact foldl_step_none defs l
    · exact ih hmem2 _

/-- Claim C9 counterexample: a policy name with a parameter setting but no
use setting that is absent from the multiauth.policies list is never
processed, so includeme completes without error, refuting the claim as
stated over every configuration. -/
theorem C9_counterexample :
    includeme_factories settingsC9x = some [] ∧
    ("multiauth.policy.foo.bar", "x") ∈ settingsC9x ∧
    settingsGet settingsC9x "multiauth.policy.foo.use" = none := by
  refine ⟨rfl, ?_, rfl⟩
  simp [settingsC9x]

/-- Claim C9 amended: for every configuration in which some policy name
listed in multiauth.policies has at least one parameter setting, as
recorded by the parsed policy definitions, but no use setting, includeme
raises an error, the KeyError from definition.pop, at setup time, before
any request is served. -/
theorem C9_amended (settings : List (String × String)) (name : String)
    (defs : List (String × String × String))
    (hparse : parse_policy_definitions settings = some defs)
    (hdecl : name ∈ includeme_policy_names settings)
    (hne : defs.filter (fun t => t.1 = name) ≠ [])
    (huse : (defs.filter (fun t => t.1 = name)).find? (fun t => t.2.1 = "use") = none) :
    includeme_factories settings = none := by
  unfold includeme_factories
  rw [hparse]
  exact foldl_step_mem_none defs name
    (includeme_factories_step_bad defs name hne huse)
    (includeme_policy_names settings).reverse
    (List.mem_reverse.mpr hdecl) (some [])

/-- Witness for claim C9 amended at the concrete settings settingsC9w. -/
theorem C9_amended_witness : includeme_factories settingsC9w = none :=
  C9_amended settingsC9w "foo" [("foo", "bar", "x")] rfl (by decide) (by decide) rfl

end PyramidMultiauth
